import Mathlib

/-!
Verification of the DDSModel NFL Monte Carlo simulator.

This file gives a shallow embedding of the numeric core of the repository:

* the discrete drive model of `src/unnamed/part_002` (`simulateDrive`,
  `simulateGameDiscrete`, `parsePct`, `zScore`, `percentile`);
* the continuous model of `src/src/App.jsx` (`parsePercent`, `zScore`,
  `toAmericanOdds`, `percentile`, `calculateWeatherAdjustment`);
* the hybrid model of `src/unnamed/part_001` (`parsePercentStrict`,
  `zScore`, `computeWeatherTotalDelta`).

JavaScript numbers are modelled as exact rationals (`ℚ`) for the purely
algebraic helpers, and as reals (`ℝ`) for the logistic drive model, whose
`sigmoid` involves the exponential function.  A JavaScript computation whose
result is non-finite (for instance a division by zero producing `Infinity`)
is modelled as `Option.none`.  String parsing is abstracted to the pair of
the `parseFloat` result and the boolean "the raw string contained a percent
sign", which is the only information the parsing helpers use.
-/

/-- JS `Math.round`: rounds half toward positive infinity, i.e. `⌊x + 1/2⌋`. -/
def jsRound (q : ℚ) : ℤ := ⌊q + 1/2⌋

/-! ### Percent parsing (`App.jsx` `parsePercent`, `part_001` `parsePercentStrict`,
`part_002` `parsePct`).  Input: the parsed numeric value `n` and whether the raw
string contained a percent sign. -/

/-- Embedding of `parsePercent` from `src/src/App.jsx` (lines 203-219): with a
percent sign always divide by 100; otherwise divide by 100 whenever `n > 1`. -/
def parsePercent (hasPct : Bool) (n : ℚ) : ℚ :=
  if hasPct then n / 100
  else if 1 < n then n / 100
  else n

/-- Embedding of `parsePercentStrict` from `src/unnamed/part_001` (lines
124-134), numeric path: with a percent sign divide by 100; otherwise divide by
100 exactly when `1 < n ≤ 100`. -/
def parsePercentStrict (hasPct : Bool) (n : ℚ) : ℚ :=
  if hasPct then n / 100
  else if 1 < n ∧ n ≤ 100 then n / 100
  else n

/-- Embedding of `parsePct` from `src/unnamed/part_002` (lines 100-120): with a
percent sign divide by 100; a value `< 1` is kept; a value in `[1, 100]`
(including `1` itself) is divided by 100; larger values are kept. -/
def parsePct (hasPct : Bool) (n : ℚ) : ℚ :=
  if hasPct then n / 100
  else if n < 1 then n
  else if 1 ≤ n ∧ n ≤ 100 then n / 100
  else n

/-- Modelled from the spec: the parsing rule of spec §4.1 / claim C4 — a value
with a percent sign is divided by 100; a value without one is divided by 100
exactly when it lies in the half-open interval `(1, 100]`; anything else is
used as-is. -/
def specPercentRule (hasPct : Bool) (n : ℚ) : ℚ :=
  if hasPct then n / 100
  else if 1 < n ∧ n ≤ 100 then n / 100
  else n

/-! ### z-scores, three implementation variants. -/

/-- Embedding of `zScore` from `src/src/App.jsx` (lines 224-227): a zero sd
short-circuits to the defined value `0`. -/
def zScoreApp (value mean sd : ℚ) : ℚ :=
  if sd = 0 then 0 else (value - mean) / sd

/-- Embedding of `zScore` from `src/unnamed/part_001` (line 236), numeric path:
a zero (or falsy) sd is replaced by the epsilon `1e-9` before dividing. -/
def zScoreHybrid (value mean sd : ℚ) : ℚ :=
  (value - mean) / (if sd = 0 then 1 / 1000000000 else sd)

/-- Embedding of `zScore` from `src/unnamed/part_002` (line 206):
`(val - mean) / sd` with no guard.  In JavaScript a zero sd produces a
non-finite number (`Infinity` or `NaN`); that outcome is modelled as `none`. -/
def zScoreDiscrete (value mean sd : ℚ) : Option ℚ :=
  if sd = 0 then none else some ((value - mean) / sd)

/-- League standard deviation `PPD_sd = 0.42` configured in `part_002`. -/
def lg_PPD_sd : ℚ := 42 / 100

/-- League standard deviation `EPA_sd = 0.127` configured in `part_002`. -/
def lg_EPA_sd : ℚ := 127 / 1000

/-- League standard deviation `SR_sd = 0.05` configured in `part_002`. -/
def lg_SR_sd : ℚ := 5 / 100

/-- League standard deviation `Xpl_sd = 0.033` configured in `part_002`. -/
def lg_Xpl_sd : ℚ := 33 / 1000

/-- League standard deviation `RZ_sd = 0.12` configured in `part_002`. -/
def lg_RZ_sd : ℚ := 12 / 100

/-- League standard deviation `ThreeOut_sd = 0.05` configured in `part_002`. -/
def lg_ThreeOut_sd : ℚ := 5 / 100

/-- League standard deviation `Pen_sd = 0.12` configured in `part_002`. -/
def lg_Pen_sd : ℚ := 12 / 100

/-! ### Fair American odds (`App.jsx` `toAmericanOdds`, lines 232-238). -/

/-- Result type of the odds conversion: JS `Infinity` and `-Infinity` are the
two sentinels, every other result is a rounded integer. -/
inductive AmericanOdds where
  | posInf : AmericanOdds
  | negInf : AmericanOdds
  | value : ℤ → AmericanOdds
deriving DecidableEq

/-- Embedding of `toAmericanOdds` from `src/src/App.jsx` (lines 232-238). -/
def toAmericanOdds (p : ℚ) : AmericanOdds :=
  if p ≤ 0 then .posInf
  else if 1 ≤ p then .negInf
  else if 1/2 ≤ p then .value (-(jsRound (p / (1 - p) * 100)))
  else .value (jsRound ((1 - p) / p * 100))

/-- Modelled from the spec: the odds rule of spec §4.7 / claim C5, written from
the spec's words for comparison with `toAmericanOdds`. -/
def specAmericanOdds (p : ℚ) : AmericanOdds :=
  if p ≤ 0 then .posInf
  else if 1 ≤ p then .negInf
  else if 1/2 ≤ p then .value (-(jsRound (p / (1 - p) * 100)))
  else .value (jsRound ((1 - p) / p * 100))

/-- Standard implied probability of American odds: negative odds `-r` give
`r / (r + 100)`, positive odds `r` give `100 / (r + 100)`.  The sentinels map
to `0` (unused under the round-trip hypotheses). -/
def impliedProb : AmericanOdds → ℚ
  | .value n => if n < 0 then (-(n : ℚ)) / (-(n : ℚ) + 100) else 100 / ((n : ℚ) + 100)
  | _ => 0

/-- The back-conversion formula exactly as written in claim C6:
`100 / (|odds| + 100)` for negative-side odds and `100 / (odds + 100)` for
positive odds, which collapse to `100 / (|odds| + 100)` in both cases. -/
def claimImpliedProb : AmericanOdds → ℚ
  | .value n => 100 / (|(n : ℚ)| + 100)
  | _ => 0

/-! ### Percentiles, two implementation variants. -/

/-- Ascending sort used by both percentile helpers (JS `sort((a, b) => a - b)`). -/
def sortQ (xs : List ℚ) : List ℚ := List.insertionSort (· ≤ ·) xs

/-- Embedding of `percentile` from `src/src/App.jsx` (lines 850-857): linear
interpolation between the order statistics at `⌊index⌋` and `⌈index⌉`, where
`index = (p / 100) * (length - 1)` and `p` ranges over `[0, 100]`. -/
def percentileApp (xs : List ℚ) (p : ℚ) : ℚ :=
  (sortQ xs).getD (⌊p / 100 * ((xs.length : ℚ) - 1)⌋).toNat 0
      * (1 - (p / 100 * ((xs.length : ℚ) - 1) - ⌊p / 100 * ((xs.length : ℚ) - 1)⌋))
    + (sortQ xs).getD (⌈p / 100 * ((xs.length : ℚ) - 1)⌉).toNat 0
      * (p / 100 * ((xs.length : ℚ) - 1) - ⌊p / 100 * ((xs.length : ℚ) - 1)⌋)

/-- Embedding of `percentile` from `src/unnamed/part_002` (lines 446-450): the
order statistic at index `⌊length * p⌋`, where `p` ranges over `[0, 1)`. -/
def percentileDisc (xs : List ℚ) (p : ℚ) : ℚ :=
  (sortQ xs).getD (⌊(xs.length : ℚ) * p⌋).toNat 0

/-! ### Drive budget allocation, from `simulateGameDiscrete`
(`src/unnamed/part_002`, lines 275-292). -/

/-- Result of the drive budget allocation. -/
structure DriveBudget where
  home : ℤ
  away : ℤ
  total : ℤ
deriving DecidableEq

/-- Total drives: `clamp(round(hd + ad), 18, 30)` (lines 277-280). -/
def budgetTotal (hd ad : ℚ) : ℤ := max 18 (min 30 (jsRound (hd + ad)))

/-- Pace tilt: `clamp((hd - ad) * 0.1, -0.6, 0.6)` (line 283). -/
def budgetTilt (hd ad : ℚ) : ℚ := max (-(3/5)) (min (3/5) ((hd - ad) * (1/10)))

/-- First home estimate: `round(totalDrives / 2 + tilt)` (line 284). -/
def budgetHome0 (hd ad : ℚ) : ℤ := jsRound ((budgetTotal hd ad : ℚ) / 2 + budgetTilt hd ad)

/-- Home drives after the per-team clamp to `[9, 15]` (line 289). -/
def budgetHome1 (hd ad : ℚ) : ℤ := max 9 (min 15 (budgetHome0 hd ad))

/-- Embedding of the allocation steps of `simulateGameDiscrete` (lines
277-292).  The JS mutation sequence — clamp home to `[9, 15]`, recompute
`away = total - home`, then the two repair branches `away < 9` and
`away > 15` (the second can only fire when the first did not) — collapses to
this three-way conditional. -/
def driveBudget (hd ad : ℚ) : DriveBudget :=
  if budgetTotal hd ad - budgetHome1 hd ad < 9 then
    ⟨budgetTotal hd ad - 9, 9, budgetTotal hd ad⟩
  else if 15 < budgetTotal hd ad - budgetHome1 hd ad then
    ⟨budgetTotal hd ad - 15, 15, budgetTotal hd ad⟩
  else
    ⟨budgetHome1 hd ad, budgetTotal hd ad - budgetHome1 hd ad, budgetTotal hd ad⟩

/-! ### Weather adjustments (`App.jsx` `calculateWeatherAdjustment`,
`part_001` `computeWeatherTotalDelta`). -/

/-- Precipitation states accepted by both weather functions. -/
inductive Precipitation where
  | none : Precipitation
  | light_rain : Precipitation
  | heavy_rain : Precipitation
  | snow : Precipitation
deriving DecidableEq

/-- Weather settings consumed by the weather adjustments (`part_001` names the
temperature field `temperatureF`; the fields coincide otherwise). -/
structure WeatherSettings where
  isDome : Bool
  windMPH : ℚ
  temperature : ℚ
  precipitation : Precipitation

/-- Dome bonus `1.5` configured in `src/src/App.jsx` (`params.weather.dome_bonus`). -/
def dome_bonus : ℚ := 3/2

/-- Dome bonus `2.5` configured in `src/unnamed/part_001`
(`weatherParams.dome_bonus_total`). -/
def dome_bonus_total : ℚ := 5/2

/-- Precipitation table of `src/src/App.jsx` (`params.weather.precip_adjustments`). -/
def precipAdjApp : Precipitation → ℚ
  | .none => 0
  | .light_rain => -1
  | .heavy_rain => -2
  | .snow => -(5/2)

/-- Precipitation table of `src/unnamed/part_001`
(`weatherParams.precip_total_adjustments`). -/
def precipAdjHybrid : Precipitation → ℚ
  | .none => 0
  | .light_rain => -(8/10)
  | .heavy_rain => -(16/10)
  | .snow => -2

/-- Embedding of `calculateWeatherAdjustment` from `src/src/App.jsx` (lines
600-623): a dome returns the dome bonus alone; otherwise wind above 10 mph,
extreme cold below 25°F and precipitation each contribute. -/
def calculateWeatherAdjustment (s : WeatherSettings) : ℚ :=
  if s.isDome then dome_bonus
  else
    (if 10 < s.windMPH then (s.windMPH - 10) * (-(6/100)) else 0)
      + (if s.temperature < 25 then -(3/2) else 0)
      + precipAdjApp s.precipitation

/-- Embedding of `computeWeatherTotalDelta` from `src/unnamed/part_001` (lines
345-358): a dome returns the dome total bonus alone; otherwise wind above
12 mph, cold below 20°F and precipitation each contribute. -/
def computeWeatherTotalDelta (s : WeatherSettings) : ℚ :=
  if s.isDome then dome_bonus_total
  else
    (if 12 < s.windMPH then (s.windMPH - 12) * (-(7/100)) else 0)
      + (if s.temperature < 20 then -1 else 0)
      + precipAdjHybrid s.precipitation

/-! ### The discrete drive model (`src/unnamed/part_002`, `simulateDrive`,
lines 212-272).  Reals model JS doubles; the logistic curve uses `Real.exp`. -/

/-- Logistic sigmoid `1 / (1 + exp(-x))` (line 209). -/
noncomputable def sigmoid (x : ℝ) : ℝ := 1 / (1 + Real.exp (-x))

/-- Logit clamp `Math.max(-8, Math.min(8, x))` used on both logits. -/
noncomputable def clamp8 (x : ℝ) : ℝ := max (-8) (min 8 x)

/-- Per-matchup metrics consumed by `simulateDrive`, as produced by
`estimateScore` (lines 392-400). -/
structure DriveMetrics where
  epa_diff : ℝ
  sr_diff : ℝ
  rz_diff : ℝ
  opp_3out_centered : ℝ
  strength_adj : ℝ
  isHome : Bool

/-- Calibration constant `threeOut_a0 = -1.10` (line 42). -/
noncomputable def threeOut_a0 : ℝ := -(11/10)

/-- Calibration constant `threeOut_a1 = 2.6` (line 43). -/
noncomputable def threeOut_a1 : ℝ := 26/10

/-- Calibration constant `threeOut_a2 = 0.8` (line 44). -/
noncomputable def threeOut_a2 : ℝ := 8/10

/-- Calibration constant `threeOut_a3 = 1.5` (line 45). -/
noncomputable def threeOut_a3 : ℝ := 15/10

/-- Calibration constant `td_b0 = -0.85` (line 48). -/
noncomputable def td_b0 : ℝ := -(85/100)

/-- Calibration constant `td_b1 = 3.0` (line 49). -/
noncomputable def td_b1 : ℝ := 3

/-- Calibration constant `td_b2 = 0.6` (line 50). -/
noncomputable def td_b2 : ℝ := 6/10

/-- Calibration constant `td_b3 = 1.2` (line 51). -/
noncomputable def td_b3 : ℝ := 12/10

/-- Calibration constant `fg_phi = 0.30` (line 54). -/
noncomputable def fg_phi : ℝ := 3/10

/-- Home-field term `(metrics.isHome ? hfa_logit : -hfa_logit)` with
`hfa_logit = hfa / 12` (lines 217, 234, 250). -/
noncomputable def hfaTerm (isHome : Bool) (hfa : ℝ) : ℝ :=
  if isHome then hfa / 12 else -(hfa / 12)

/-- Three-and-out logit (lines 229-234); the home-field term is subtracted. -/
noncomputable def logit3out (m : DriveMetrics) (hfa : ℝ) : ℝ :=
  threeOut_a0 - threeOut_a1 * m.epa_diff - threeOut_a2 * m.sr_diff
    + threeOut_a3 * m.opp_3out_centered - hfaTerm m.isHome hfa

/-- Three-and-out probability `sigmoid(clamp(logit, -8, 8))` (line 236). -/
noncomputable def p3out (m : DriveMetrics) (hfa : ℝ) : ℝ :=
  sigmoid (clamp8 (logit3out m hfa))

/-- Touchdown-given-sustained logit (lines 244-250); the home-field term is
added. -/
noncomputable def logitTd (m : DriveMetrics) (hfa : ℝ) : ℝ :=
  td_b0 + td_b1 * m.epa_diff + td_b2 * m.sr_diff + td_b3 * m.rz_diff
    + m.strength_adj + hfaTerm m.isHome hfa

/-- Touchdown-given-sustained probability (line 252). -/
noncomputable def pTdGivenSustain (m : DriveMetrics) (hfa : ℝ) : ℝ :=
  sigmoid (clamp8 (logitTd m hfa))

/-- Red-zone quality factor `Math.min(1.3, Math.max(0.7, 1 - rz_diff * 0.5))`
(line 258). -/
noncomputable def rzQualityFactor (m : DriveMetrics) : ℝ :=
  min (13/10) (max (7/10) (1 - m.rz_diff * (5/10)))

/-- Field-goal-given-sustained probability, clamped to the non-TD mass
(lines 259-261). -/
noncomputable def pFgGivenSustain (m : DriveMetrics) (hfa : ℝ) : ℝ :=
  max 0 (min (1 - pTdGivenSustain m hfa)
    (fg_phi * rzQualityFactor m * (1 - pTdGivenSustain m hfa)))

/-- Outcome of one drive given the two uniform draws of `simulateDrive`
(lines 239, 264-271): `r1` decides the three-and-out roll and `r2` the
TD/FG/empty roll; the returned score is 0, 3 or 7. -/
noncomputable def driveScore (m : DriveMetrics) (hfa : ℝ) (r1 r2 : ℝ) : ℕ :=
  if r1 < p3out m hfa then 0
  else if r2 < pTdGivenSustain m hfa then 7
  else if r2 < pTdGivenSustain m hfa + pFgGivenSustain m hfa then 3
  else 0

/-- Points scored over the first `n` drives of one team, consuming the random
stream `rand` (loops at lines 298-307). -/
noncomputable def teamScore (m : DriveMetrics) (hfa : ℝ) (rand : ℕ → ℝ × ℝ) : ℕ → ℕ
  | 0 => 0
  | n + 1 => teamScore m hfa rand n + driveScore m hfa (rand n).1 (rand n).2

/-- Per-team inputs of `simulateGameDiscrete`: the drive metrics together with
the continuous expected drive count. -/
structure TeamSim where
  metrics : DriveMetrics
  drives : ℚ

/-- Embedding of `simulateGameDiscrete` (lines 275-310): allocate the drive
budget, then run each team's drives through `simulateDrive` on its own random
stream and sum the points. -/
noncomputable def simulateGameDiscrete (home away : TeamSim) (hfa : ℝ)
    (hrand arand : ℕ → ℝ × ℝ) : ℕ × ℕ :=
  (teamScore home.metrics hfa hrand (driveBudget home.drives away.drives).home.toNat,
   teamScore away.metrics hfa arand (driveBudget home.drives away.drives).away.toNat)

/-! ## Shared helper lemmas -/

/-- JS `Math.round` is within one half of its argument. -/
lemma jsRound_close (q : ℚ) : |(jsRound q : ℚ) - q| ≤ 1/2 := by
  rw [jsRound, abs_le]
  constructor
  · have h := Int.lt_floor_add_one (q + 1/2)
    push_cast at h ⊢
    linarith
  · have h := Int.floor_le (q + 1/2)
    push_cast at h ⊢
    linarith

/-- JS `Math.round` of a value at least 100 is at least 100. -/
lemma jsRound_ge_hundred (q : ℚ) (h : 100 ≤ q) : (100 : ℚ) ≤ (jsRound q : ℚ) := by
  have h1 : (100 : ℤ) ≤ jsRound q := by
    rw [jsRound]
    exact Int.le_floor.mpr (by push_cast; linarith)
  exact_mod_cast h1

/-- Two arguments of `t ↦ t / (t + 100)` that are at least 100 and within one
half of each other give values within `1/800` of each other. -/
lemma odds_ratio_close (a b : ℚ) (ha : 100 ≤ a) (hb : 100 ≤ b)
    (hab : |a - b| ≤ 1/2) : |a / (a + 100) - b / (b + 100)| ≤ 1/800 := by
  have ha0 : (0:ℚ) < a + 100 := by linarith
  have hb0 : (0:ℚ) < b + 100 := by linarith
  have key : a / (a + 100) - b / (b + 100) = 100 * (a - b) / ((a + 100) * (b + 100)) := by
    field_simp
    ring
  rw [key, abs_div, abs_mul, abs_of_pos (mul_pos ha0 hb0)]
  have habs : |(100:ℚ)| * |a - b| ≤ 50 := by
    rw [abs_of_nonneg (by norm_num : (0:ℚ) ≤ 100)]
    nlinarith [abs_nonneg (a - b)]
  have hden : (40000:ℚ) ≤ (a + 100) * (b + 100) := by nlinarith
  calc |(100:ℚ)| * |a - b| / ((a + 100) * (b + 100)) ≤ 50 / 40000 :=
        div_le_div₀ (by norm_num) habs (by norm_num) hden
    _ = 1/800 := by norm_num

/-! ## Claim C10 (dome adjustment depends only on the dome flag) -/

/-- Claim C10: when `isDome` is true, the weather adjustment equals exactly the
configured dome bonus and is independent of wind, temperature and
precipitation, in both the continuous model (`calculateWeatherAdjustment`) and
the hybrid model (`computeWeatherTotalDelta`). -/
theorem domeAdjustment_independent (s1 s2 : WeatherSettings)
    (h1 : s1.isDome = true) (h2 : s2.isDome = true) :
    calculateWeatherAdjustment s1 = dome_bonus ∧
    computeWeatherTotalDelta s1 = dome_bonus_total ∧
    calculateWeatherAdjustment s1 = calculateWeatherAdjustment s2 ∧
    computeWeatherTotalDelta s1 = computeWeatherTotalDelta s2 := by
  simp [calculateWeatherAdjustment, computeWeatherTotalDelta, h1, h2]

/-- Witness for C10: two dome settings differing in wind, temperature and
precipitation give identical adjustments in both models. -/
theorem domeAdjustment_independent_witness :
    calculateWeatherAdjustment ⟨true, 0, 68, Precipitation.none⟩
        = calculateWeatherAdjustment ⟨true, 40, -10, Precipitation.snow⟩ ∧
    computeWeatherTotalDelta ⟨true, 0, 68, Precipitation.none⟩
        = computeWeatherTotalDelta ⟨true, 40, -10, Precipitation.snow⟩ :=
  ⟨(domeAdjustment_independent ⟨true, 0, 68, Precipitation.none⟩
      ⟨true, 40, -10, Precipitation.snow⟩ rfl rfl).2.2.1,
   (domeAdjustment_independent ⟨true, 0, 68, Precipitation.none⟩
      ⟨true, 40, -10, Precipitation.snow⟩ rfl rfl).2.2.2⟩

/-! ## Claim C8 (z-score totality) -/

/-- Counterexample for C8 as stated: in the `part_002` variant the z-score at
sd `= 0` is an unguarded division by zero, whose JS result is non-finite
(modelled as `none`), so that variant is not total over finite reals. -/
theorem zScore_discrete_cex : zScoreDiscrete 1 0 0 = none := by rfl

/-- Claim C8 amended: the `App.jsx` variant returns `0` at sd `= 0` and the
`part_001` variant substitutes the epsilon `1e-9`, so both are total; the
`part_002` variant is finite exactly when sd is nonzero, and every league
standard deviation configured in `part_002` is nonzero. -/
theorem zScore_totality (v m s : ℚ) :
    zScoreApp v m 0 = 0 ∧
    zScoreHybrid v m 0 = (v - m) / (1 / 1000000000) ∧
    (s ≠ 0 → zScoreDiscrete v m s = some ((v - m) / s)) ∧
    zScoreDiscrete v m 0 = none ∧
    (zScoreDiscrete v m lg_PPD_sd).isSome = true ∧
    (zScoreDiscrete v m lg_EPA_sd).isSome = true ∧
    (zScoreDiscrete v m lg_SR_sd).isSome = true ∧
    (zScoreDiscrete v m lg_Xpl_sd).isSome = true ∧
    (zScoreDiscrete v m lg_RZ_sd).isSome = true ∧
    (zScoreDiscrete v m lg_ThreeOut_sd).isSome = true ∧
    (zScoreDiscrete v m lg_Pen_sd).isSome = true := by
  refine ⟨by simp [zScoreApp], by simp [zScoreHybrid], fun hs => by simp [zScoreDiscrete, hs],
    by simp [zScoreDiscrete], ?_, ?_, ?_, ?_, ?_, ?_, ?_⟩ <;>
    norm_num [zScoreDiscrete, lg_PPD_sd, lg_EPA_sd, lg_SR_sd, lg_Xpl_sd, lg_RZ_sd,
      lg_ThreeOut_sd, lg_Pen_sd]

/-- Witness for C8 amended: the `part_002` variant at a nonzero sd. -/
theorem zScore_totality_witness : zScoreDiscrete 3 1 2 = some 1 := by
  have h := (zScore_totality 3 1 2).2.2.1 (by norm_num)
  rw [h]
  norm_num

/-! ## Claim C4 (percent parsing rules) -/

/-- Counterexample for C4 as stated: `parsePercent` (App.jsx) divides the
percent-free value `150` by 100 even though it lies above 100, and `parsePct`
(part_002) divides the percent-free value `1` by 100 even though `1` is outside
`(1, 100]`; the claim says both are returned unchanged. -/
theorem percentParse_cex :
    parsePercent false 150 = 3/2 ∧ parsePct false 1 = 1/100 := by
  norm_num [parsePercent, parsePct]

/-- Claim C4 amended: `parsePercentStrict` implements the stated `(1, 100]`
rule exactly; `parsePercent` agrees with it whenever a percent sign is present
or the value is at most 100 (above 100 it still divides by 100); `parsePct`
agrees with it whenever a percent sign is present or the value differs from 1
(at exactly 1 it divides by 100). -/
theorem percentParse_rules (b : Bool) (n : ℚ) :
    parsePercentStrict b n = specPercentRule b n ∧
    (b = true ∨ n ≤ 100 → parsePercent b n = specPercentRule b n) ∧
    (b = true ∨ n ≠ 1 → parsePct b n = specPercentRule b n) := by
  refine ⟨rfl, ?_, ?_⟩
  · rintro (rfl | hn)
    · simp [parsePercent, specPercentRule]
    · cases b with
      | true => simp [parsePercent, specPercentRule]
      | false =>
        simp only [parsePercent, specPercentRule, Bool.false_eq_true, if_false]
        split_ifs with h1 h2 h3
        · rfl
        · exact absurd ⟨h1, hn⟩ h2
        · exact absurd h3.1 h1
        · rfl
  · rintro (rfl | hn)
    · simp [parsePct, specPercentRule]
    · cases b with
      | true => simp [parsePct, specPercentRule]
      | false =>
        simp only [parsePct, specPercentRule, Bool.false_eq_true, if_false]
        split_ifs with h1 h2 h3 h4 h5
        · exact absurd h2.1 (by linarith)
        · rfl
        · rfl
        · exact absurd ⟨lt_of_le_of_ne h3.1 (Ne.symm hn), h3.2⟩ h4
        · exact absurd ⟨le_of_lt h5.1, h5.2⟩ h3
        · rfl
  
/-- Witness for C4 amended: all three parsers agree with the spec rule on the
percent-free value `50`. -/
theorem percentParse_rules_witness :
    parsePercentStrict false 50 = specPercentRule false 50 ∧
    parsePercent false 50 = specPercentRule false 50 ∧
    parsePct false 50 = specPercentRule false 50 :=
  ⟨(percentParse_rules false 50).1,
   (percentParse_rules false 50).2.1 (Or.inr (by norm_num)),
   (percentParse_rules false 50).2.2 (Or.inr (by norm_num))⟩

/-! ## Claim C5 (fair American odds conversion) -/

/-- Claim C5: `toAmericanOdds` returns the positive-infinity sentinel for
`p ≤ 0`, the negative-infinity sentinel for `p ≥ 1`, `-round(p/(1-p)·100)` for
`1/2 ≤ p < 1`, and `round((1-p)/p·100)` for `0 < p < 1/2`; equivalently it
coincides with the rule transcribed from the spec. -/
theorem toAmericanOdds_spec (p : ℚ) :
    toAmericanOdds p = specAmericanOdds p ∧
    (p ≤ 0 → toAmericanOdds p = AmericanOdds.posInf) ∧
    (1 ≤ p → toAmericanOdds p = AmericanOdds.negInf) ∧
    (0 < p → p < 1 → 1/2 ≤ p →
      toAmericanOdds p = AmericanOdds.value (-(jsRound (p / (1 - p) * 100)))) ∧
    (0 < p → p < 1/2 →
      toAmericanOdds p = AmericanOdds.value (jsRound ((1 - p) / p * 100))) := by
  refine ⟨rfl, ?_, ?_, ?_, ?_⟩
  · intro h
    rw [toAmericanOdds, if_pos h]
  · intro h
    rw [toAmericanOdds, if_neg (by linarith), if_pos h]
  · intro h0 h1 hh
    rw [toAmericanOdds, if_neg (by linarith), if_neg (by linarith), if_pos hh]
  · intro h0 hh
    rw [toAmericanOdds, if_neg (by linarith), if_neg (by linarith), if_neg (by linarith)]

/-- Witness for C5: `p = 3/4` gives odds `-300`. -/
theorem toAmericanOdds_spec_witness :
    toAmericanOdds (3/4) = AmericanOdds.value (-300) := by
  have h := (toAmericanOdds_spec (3/4)).2.2.2.1 (by norm_num) (by norm_num) (by norm_num)
  rw [h]
  norm_num [jsRound]

/-! ## Claim C6 (odds round trip) -/

/-- Counterexample for C6 as stated: at `p = 3/5` the odds are `-150` with zero
rounding error (the pre-rounding value is exactly 150), yet the claim's
back-conversion `100/(|odds|+100)` yields `2/5 ≠ 3/5`, recovering the opposite
side's probability rather than `p`. -/
theorem oddsRoundTrip_cex :
    toAmericanOdds (3/5) = AmericanOdds.value (-150) ∧
    jsRound ((3/5) / (1 - 3/5) * 100) = 150 ∧
    claimImpliedProb (AmericanOdds.value (-150)) = 2/5 ∧
    (2/5 : ℚ) ≠ 3/5 := by
  refine ⟨?_, ?_, ?_, by norm_num⟩
  · rw [toAmericanOdds, if_neg (by norm_num), if_neg (by norm_num), if_pos (by norm_num)]
    norm_num [jsRound]
  · norm_num [jsRound]
  · norm_num [claimImpliedProb]

/-- Claim C6 amended: with the standard back-conversion — `|odds|/(|odds|+100)`
for negative odds and `100/(odds+100)` for positive odds — the round trip
recovers `p ∈ (0,1)` to within `1/800`, the tolerance introduced by rounding
the odds to an integer. -/
theorem oddsRoundTrip_bound (p : ℚ) (h0 : 0 < p) (h1 : p < 1) :
    |impliedProb (toAmericanOdds p) - p| ≤ 1/800 := by
  by_cases hh : 1/2 ≤ p
  · have hodds : toAmericanOdds p = AmericanOdds.value (-(jsRound (p / (1 - p) * 100))) := by
      rw [toAmericanOdds, if_neg (by linarith), if_neg (by linarith), if_pos hh]
    set x : ℚ := p / (1 - p) * 100 with hxdef
    have h1p : (0:ℚ) < 1 - p := by linarith
    have hx : 100 ≤ x := by
      rw [hxdef, div_mul_eq_mul_div, le_div_iff₀ h1p]
      linarith
    have hr100 : (100:ℚ) ≤ (jsRound x : ℚ) := jsRound_ge_hundred x hx
    have hrx : |(jsRound x : ℚ) - x| ≤ 1/2 := jsRound_close x
    have hneg : -(jsRound x) < 0 := by
      have hq : (0:ℚ) < (jsRound x : ℚ) := by linarith
      have hz : (0:ℤ) < jsRound x := by exact_mod_cast hq
      omega
    have himp : impliedProb (toAmericanOdds p)
        = (jsRound x : ℚ) / ((jsRound x : ℚ) + 100) := by
      rw [hodds]
      simp only [impliedProb, if_pos hneg]
      push_cast
      ring_nf
    have h1p' : (1:ℚ) - p ≠ 0 := ne_of_gt h1p
    have hxpos : (0:ℚ) < x + 100 := by linarith
    have hpx : x / (x + 100) = p := by
      rw [div_eq_iff (ne_of_gt hxpos), hxdef]
      field_simp
      first
      | ring1
      | exact Or.inl (by ring)
      | exact Or.inr (by ring)
    rw [himp]
    calc |(jsRound x : ℚ) / ((jsRound x : ℚ) + 100) - p|
        = |(jsRound x : ℚ) / ((jsRound x : ℚ) + 100) - x / (x + 100)| := by rw [hpx]
      _ ≤ 1/800 := odds_ratio_close _ _ hr100 hx hrx
  · push_neg at hh
    have hodds : toAmericanOdds p = AmericanOdds.value (jsRound ((1 - p) / p * 100)) := by
      rw [toAmericanOdds, if_neg (by linarith), if_neg (by linarith), if_neg (by linarith)]
    set x : ℚ := (1 - p) / p * 100 with hxdef
    have hx : 100 ≤ x := by
      rw [hxdef, div_mul_eq_mul_div, le_div_iff₀ h0]
      linarith
    have hr100 : (100:ℚ) ≤ (jsRound x : ℚ) := jsRound_ge_hundred x hx
    have hrx : |(jsRound x : ℚ) - x| ≤ 1/2 := jsRound_close x
    have hnneg : ¬ (jsRound x < 0) := by
      have hq : (0:ℚ) ≤ (jsRound x : ℚ) := by linarith
      have hz : (0:ℤ) ≤ jsRound x := by exact_mod_cast hq
      omega
    have himp : impliedProb (toAmericanOdds p) = 100 / ((jsRound x : ℚ) + 100) := by
      rw [hodds]
      simp only [impliedProb, if_neg hnneg]
    have hp0 : p ≠ 0 := ne_of_gt h0
    have hxpos : (0:ℚ) < x + 100 := by linarith
    have hpx : 100 / (x + 100) = p := by
      rw [div_eq_iff (ne_of_gt hxpos), hxdef]
      field_simp
      first
      | ring1
      | exact Or.inl (by ring)
      | exact Or.inr (by ring)
    have hr0 : ((jsRound x : ℚ) + 100) ≠ 0 := by linarith
    have hx0 : (x + 100) ≠ 0 := by linarith
    have e1 : (100:ℚ) / ((jsRound x : ℚ) + 100)
        = 1 - (jsRound x : ℚ) / ((jsRound x : ℚ) + 100) := by
      field_simp
    have e2 : (100:ℚ) / (x + 100) = 1 - x / (x + 100) := by
      field_simp
    rw [himp, ← hpx, e1, e2]
    have hflip : (1 - (jsRound x : ℚ) / ((jsRound x : ℚ) + 100)) - (1 - x / (x + 100))
        = -((jsRound x : ℚ) / ((jsRound x : ℚ) + 100) - x / (x + 100)) := by ring
    rw [hflip, abs_neg]
    exact odds_ratio_close _ _ hr100 hx hrx

/-- Witness for C6 amended: `p = 1/4`. -/
theorem oddsRoundTrip_bound_witness :
    (0:ℚ) < 1/4 ∧ (1/4:ℚ) < 1 ∧ |impliedProb (toAmericanOdds (1/4)) - 1/4| ≤ 1/800 :=
  ⟨by norm_num, by norm_num, oddsRoundTrip_bound (1/4) (by norm_num) (by norm_num)⟩

/-! ## Claim C2 (drive budget allocation) -/

/-- Total drives always land in the feasible window `[18, 30]`. -/
lemma budgetTotal_bounds (hd ad : ℚ) : 18 ≤ budgetTotal hd ad ∧ budgetTotal hd ad ≤ 30 :=
  ⟨le_max_left _ _, max_le (by norm_num) (min_le_left _ _)⟩

/-- The clamped home estimate always lands in `[9, 15]`. -/
lemma budgetHome1_bounds (hd ad : ℚ) : 9 ≤ budgetHome1 hd ad ∧ budgetHome1 hd ad ≤ 15 :=
  ⟨le_max_left _ _, max_le (by norm_num) (min_le_left _ _)⟩

/-- Full specification of the allocation: the split preserves the clamped
total and both teams end inside the per-team window `[9, 15]`. -/
lemma driveBudget_spec (hd ad : ℚ) :
    (driveBudget hd ad).home + (driveBudget hd ad).away = (driveBudget hd ad).total ∧
    9 ≤ (driveBudget hd ad).home ∧ (driveBudget hd ad).home ≤ 15 ∧
    9 ≤ (driveBudget hd ad).away ∧ (driveBudget hd ad).away ≤ 15 ∧
    18 ≤ (driveBudget hd ad).total ∧ (driveBudget hd ad).total ≤ 30 := by
  obtain ⟨ht1, ht2⟩ := budgetTotal_bounds hd ad
  obtain ⟨hh1, hh2⟩ := budgetHome1_bounds hd ad
  unfold driveBudget
  split_ifs with hA hB <;> dsimp only <;> omega

/-- Claim C2: after the drive budget allocation of `simulateGameDiscrete`,
`homeDrives + awayDrives` equals the clamped `totalDrives`, and — the total
being always clamped into the feasible window `[2·9, 2·15] = [18, 30]` — both
drive counts lie within the per-team bounds `[9, 15]`. -/
theorem driveBudget_allocation_spec (hd ad : ℚ) :
    (driveBudget hd ad).home + (driveBudget hd ad).away = (driveBudget hd ad).total ∧
    9 ≤ (driveBudget hd ad).home ∧ (driveBudget hd ad).home ≤ 15 ∧
    9 ≤ (driveBudget hd ad).away ∧ (driveBudget hd ad).away ≤ 15 ∧
    18 ≤ (driveBudget hd ad).total ∧ (driveBudget hd ad).total ≤ 30 :=
  driveBudget_spec hd ad

/-! ## Claims C1 and C3 (drive outcome probabilities and HFA logits) -/

/-- The sigmoid is strictly positive. -/
lemma sigmoid_pos (x : ℝ) : 0 < sigmoid x := by
  rw [sigmoid]
  positivity

/-- The sigmoid is strictly below one. -/
lemma sigmoid_lt_one (x : ℝ) : sigmoid x < 1 := by
  rw [sigmoid]
  have h : (0:ℝ) < 1 + Real.exp (-x) := by positivity
  rw [div_lt_one h]
  linarith [Real.exp_pos (-x)]

/-- The sigmoid exceeds one half on positive arguments. -/
lemma half_lt_sigmoid {x : ℝ} (hx : 0 < x) : 1/2 < sigmoid x := by
  rw [sigmoid]
  have h : (0:ℝ) < 1 + Real.exp (-x) := by positivity
  rw [lt_div_iff h]
  have h1 : Real.exp (-x) < 1 := Real.exp_lt_one_iff.mpr (by linarith)
  linarith

/-- The clamp is the identity inside `[-8, 8]`. -/
lemma clamp8_eq_of {x : ℝ} (h1 : -8 ≤ x) (h2 : x ≤ 8) : clamp8 x = x := by
  rw [clamp8, min_eq_right h2, max_eq_right h1]

/-- The field-goal probability is nonnegative and bounded by the non-TD mass. -/
lemma pFg_bounds (m : DriveMetrics) (hfa : ℝ) :
    0 ≤ pFgGivenSustain m hfa ∧
    pFgGivenSustain m hfa ≤ 1 - pTdGivenSustain m hfa := by
  constructor
  · exact le_max_left 0 _
  · rw [pFgGivenSustain]
    have htd : pTdGivenSustain m hfa < 1 := sigmoid_lt_one _
    exact max_le (by linarith) (min_le_left _ _)

/-- Concrete metrics for the C1 counterexample: neutral differentials, a large
opponent three-out rate and a large strength adjustment. -/
def cexMetricsC1 : DriveMetrics := ⟨0, 0, 0, 1, 1, true⟩

/-- Counterexample for C1 as stated: `p_td` and `p_fg` are conditional on the
drive being sustained, so nothing forces `p_3out + p_td + p_fg ≤ 1`; at these
finite inputs both logits are positive, both sigmoids exceed one half, and the
three probabilities sum to more than one. -/
theorem driveProbs_sum_cex :
    1 < p3out cexMetricsC1 0 + pTdGivenSustain cexMetricsC1 0
        + pFgGivenSustain cexMetricsC1 0 := by
  have h3 : logit3out cexMetricsC1 0 = 2/5 := by
    simp [logit3out, hfaTerm, threeOut_a0, threeOut_a1, threeOut_a2, threeOut_a3, cexMetricsC1]
    norm_num
  have htd : logitTd cexMetricsC1 0 = 3/20 := by
    simp [logitTd, hfaTerm, td_b0, td_b1, td_b2, td_b3, cexMetricsC1]
    norm_num
  have hp3 : 1/2 < p3out cexMetricsC1 0 := by
    rw [p3out, h3, clamp8_eq_of (by norm_num) (by norm_num)]
    exact half_lt_sigmoid (by norm_num)
  have hptd : 1/2 < pTdGivenSustain cexMetricsC1 0 := by
    rw [pTdGivenSustain, htd, clamp8_eq_of (by norm_num) (by norm_num)]
    exact half_lt_sigmoid (by norm_num)
  have hpfg : 0 ≤ pFgGivenSustain cexMetricsC1 0 := (pFg_bounds cexMetricsC1 0).1
  linarith

/-- Claim C1 amended: for every finite input, `p_3out`, `p_td` and `p_fg` all
lie in `[0, 1]` and `p_td + p_fg ≤ 1`; because `p_td` and `p_fg` are
conditional on the drive being sustained, the guaranteed total-mass invariant
is `p_3out + (1 - p_3out)·(p_td + p_fg) ≤ 1`, while the plain sum
`p_3out + p_td + p_fg` can exceed 1. -/
theorem driveProbs_valid (m : DriveMetrics) (hfa : ℝ) :
    0 ≤ p3out m hfa ∧ p3out m hfa ≤ 1 ∧
    0 ≤ pTdGivenSustain m hfa ∧ pTdGivenSustain m hfa ≤ 1 ∧
    0 ≤ pFgGivenSustain m hfa ∧ pFgGivenSustain m hfa ≤ 1 ∧
    pTdGivenSustain m hfa + pFgGivenSustain m hfa ≤ 1 ∧
    p3out m hfa + (1 - p3out m hfa) * (pTdGivenSustain m hfa + pFgGivenSustain m hfa) ≤ 1 := by
  have h3a : 0 < p3out m hfa := sigmoid_pos _
  have h3b : p3out m hfa < 1 := sigmoid_lt_one _
  have hta : 0 < pTdGivenSustain m hfa := sigmoid_pos _
  have htb : pTdGivenSustain m hfa < 1 := sigmoid_lt_one _
  obtain ⟨hfa', hfb⟩ := pFg_bounds m hfa
  refine ⟨le_of_lt h3a, le_of_lt h3b, le_of_lt hta, le_of_lt htb, hfa', by linarith,
    by linarith, ?_⟩
  have hmass : pTdGivenSustain m hfa + pFgGivenSustain m hfa ≤ 1 := by linarith
  nlinarith

/-- Concrete metrics for the C3 counterexample: all differentials zero, home
team. -/
def cexMetricsC3 : DriveMetrics := ⟨0, 0, 0, 0, 0, true⟩

/-- Counterexample for C3 as stated: at 12 points of HFA (offset `12/12 = 1`)
the home team's three-and-out logit is the neutral logit minus 1, not plus 1 —
the offset is subtracted, not added, in the three-out logit. -/
theorem hfa_threeOut_sign_cex :
    logit3out cexMetricsC3 12 ≠ logit3out cexMetricsC3 0 + 12/12 := by
  simp only [logit3out, hfaTerm, threeOut_a0, threeOut_a1, threeOut_a2, threeOut_a3, cexMetricsC3]
  norm_num

/-- Claim C3 amended: the home-field logit offset equals `hfa/12`, and it is
subtracted for the home team and added for the away team in the three-and-out
logit, while it is added for the home team and subtracted for the away team in
the touchdown logit (home advantage means fewer three-and-outs and more
touchdowns). -/
theorem hfa_logit_offsets (e s r o st hfa : ℝ) :
    logit3out ⟨e, s, r, o, st, true⟩ hfa = logit3out ⟨e, s, r, o, st, true⟩ 0 - hfa/12 ∧
    logit3out ⟨e, s, r, o, st, false⟩ hfa = logit3out ⟨e, s, r, o, st, false⟩ 0 + hfa/12 ∧
    logitTd ⟨e, s, r, o, st, true⟩ hfa = logitTd ⟨e, s, r, o, st, true⟩ 0 + hfa/12 ∧
    logitTd ⟨e, s, r, o, st, false⟩ hfa = logitTd ⟨e, s, r, o, st, false⟩ 0 - hfa/12 := by
  refine ⟨?_, ?_, ?_, ?_⟩ <;>
    simp only [logit3out, logitTd, hfaTerm, Bool.false_eq_true, if_true, if_false] <;>
    ring

/-! ## Claim C9 (score lattice and bound) -/

/-- Every drive scores 0, 3 or 7 points. -/
lemma driveScore_cases (m : DriveMetrics) (hfa r1 r2 : ℝ) :
    driveScore m hfa r1 r2 = 0 ∨ driveScore m hfa r1 r2 = 3 ∨ driveScore m hfa r1 r2 = 7 := by
  rw [driveScore]
  split_ifs <;> simp

/-- A team's total over `n` drives is `7·t + 3·f` for some touchdown and
field-goal counts with `t + f ≤ n`. -/
lemma teamScore_shape (m : DriveMetrics) (hfa : ℝ) (rand : ℕ → ℝ × ℝ) :
    ∀ n : ℕ, ∃ t f : ℕ, teamScore m hfa rand n = 7 * t + 3 * f ∧ t + f ≤ n := by
  intro n
  induction n with
  | zero => exact ⟨0, 0, by simp [teamScore], le_refl 0⟩
  | succ k ih =>
    obtain ⟨t, f, hscore, hle⟩ := ih
    rcases driveScore_cases m hfa (rand k).1 (rand k).2 with h | h | h
    · refine ⟨t, f, ?_, by omega⟩
      rw [teamScore, hscore, h]
      omega
    · exact ⟨t, f + 1, by rw [teamScore, hscore, h]; ring, by omega⟩
    · exact ⟨t + 1, f, by rw [teamScore, hscore, h]; ring, by omega⟩

/-- Claim C9: each team's score from one run of the discrete game sampler is a
natural number of the form `7·t + 3·f` with `t + f` at most that team's
allocated drive count; the allocated counts are at most 15, so every score is
at most `105`. -/
theorem gameScore_lattice_bound (home away : TeamSim) (hfa : ℝ) (hrand arand : ℕ → ℝ × ℝ) :
    (∃ t f : ℕ, (simulateGameDiscrete home away hfa hrand arand).1 = 7 * t + 3 * f ∧
      t + f ≤ (driveBudget home.drives away.drives).home.toNat) ∧
    (simulateGameDiscrete home away hfa hrand arand).1 ≤ 105 ∧
    (∃ t f : ℕ, (simulateGameDiscrete home away hfa hrand arand).2 = 7 * t + 3 * f ∧
      t + f ≤ (driveBudget home.drives away.drives).away.toNat) ∧
    (simulateGameDiscrete home away hfa hrand arand).2 ≤ 105 := by
  obtain ⟨hsum, hh9, hh15, ha9, ha15, ht18, ht30⟩ := driveBudget_spec home.drives away.drives
  have hhn : (driveBudget home.drives away.drives).home.toNat ≤ 15 := by omega
  have han : (driveBudget home.drives away.drives).away.toNat ≤ 15 := by omega
  obtain ⟨t1, f1, hs1, hle1⟩ :=
    teamScore_shape home.metrics hfa hrand (driveBudget home.drives away.drives).home.toNat
  obtain ⟨t2, f2, hs2, hle2⟩ :=
    teamScore_shape away.metrics hfa arand (driveBudget home.drives away.drives).away.toNat
  have e1 : (simulateGameDiscrete home away hfa hrand arand).1
      = teamScore home.metrics hfa hrand (driveBudget home.drives away.drives).home.toNat := rfl
  have e2 : (simulateGameDiscrete home away hfa hrand arand).2
      = teamScore away.metrics hfa arand (driveBudget home.drives away.drives).away.toNat := rfl
  rw [e1, e2]
  exact ⟨⟨t1, f1, hs1, hle1⟩, by omega, ⟨t2, f2, hs2, hle2⟩, by omega⟩

/-! ## Claim C7 (percentile monotonicity) -/

/-- The sort used by the percentile helpers produces a sorted list. -/
lemma sortQ_sorted (xs : List ℚ) : (sortQ xs).Sorted (· ≤ ·) :=
  List.sorted_insertionSort _ xs

/-- Sorting preserves length. -/
lemma sortQ_length (xs : List ℚ) : (sortQ xs).length = xs.length :=
  (List.perm_insertionSort _ xs).length_eq

/-- In a sorted list, in-bounds `getD` access is monotone in the index. -/
lemma sorted_getD_le {l : List ℚ} (hl : l.Sorted (· ≤ ·)) {i j : ℕ}
    (hij : i ≤ j) (hj : j < l.length) : l.getD i 0 ≤ l.getD j 0 := by
  have hi : i < l.length := lt_of_le_of_lt hij hj
  have hrel : l.get ⟨i, hi⟩ ≤ l.get ⟨j, hj⟩ := hl.rel_get_of_le hij
  rw [List.getD_eq_getElem l 0 hi, List.getD_eq_getElem l 0 hj]
  simpa [List.get_eq_getElem] using hrel

/-- Monotonicity of the linear interpolation between order statistics: for
indices `0 ≤ t1 ≤ t2 ≤ length - 1` into a sorted list, the interpolated value
at `t1` is at most the one at `t2`. -/
lemma interp_mono {l : List ℚ} (hl : l.Sorted (· ≤ ·)) {t1 t2 : ℚ}
    (h0 : 0 ≤ t1) (h12 : t1 ≤ t2) (hn : t2 ≤ (l.length : ℚ) - 1) :
    l.getD (⌊t1⌋).toNat 0 * (1 - (t1 - ⌊t1⌋)) + l.getD (⌈t1⌉).toNat 0 * (t1 - ⌊t1⌋)
    ≤ l.getD (⌊t2⌋).toNat 0 * (1 - (t2 - ⌊t2⌋)) + l.getD (⌈t2⌉).toNat 0 * (t2 - ⌊t2⌋) := by
  have h02 : 0 ≤ t2 := le_trans h0 h12
  have hn1 : t1 ≤ (l.length : ℚ) - 1 := le_trans h12 hn
  have hlenQ : (1:ℚ) ≤ (l.length : ℚ) := by linarith
  have hlen : 1 ≤ l.length := by exact_mod_cast hlenQ
  have hf1nn : (0:ℤ) ≤ ⌊t1⌋ := Int.floor_nonneg.mpr h0
  have hf2nn : (0:ℤ) ≤ ⌊t2⌋ := Int.floor_nonneg.mpr h02
  have hfc1 : ⌊t1⌋ ≤ ⌈t1⌉ := Int.floor_le_ceil t1
  have hfc2 : ⌊t2⌋ ≤ ⌈t2⌉ := Int.floor_le_ceil t2
  have hc1 : ⌈t1⌉ ≤ (l.length : ℤ) - 1 := by
    rw [Int.ceil_le]
    push_cast
    linarith
  have hc2 : ⌈t2⌉ ≤ (l.length : ℤ) - 1 := by
    rw [Int.ceil_le]
    push_cast
    linarith
  have hc1lt : (⌈t1⌉).toNat < l.length := by omega
  have hc2lt : (⌈t2⌉).toNat < l.length := by omega
  have hf1lt : (⌊t1⌋).toNat < l.length := by omega
  have hf2lt : (⌊t2⌋).toNat < l.length := by omega
  have hw1a : 0 ≤ t1 - ⌊t1⌋ := by linarith [Int.floor_le t1]
  have hw1b : t1 - ⌊t1⌋ < 1 := by
    have h := Int.lt_floor_add_one t1
    push_cast at h
    linarith
  have hw2a : 0 ≤ t2 - ⌊t2⌋ := by linarith [Int.floor_le t2]
  have hw2b : t2 - ⌊t2⌋ < 1 := by
    have h := Int.lt_floor_add_one t2
    push_cast at h
    linarith
  have hAB1 : l.getD (⌊t1⌋).toNat 0 ≤ l.getD (⌈t1⌉).toNat 0 :=
    sorted_getD_le hl (by omega) hc1lt
  have hAB2 : l.getD (⌊t2⌋).toNat 0 ≤ l.getD (⌈t2⌉).toNat 0 :=
    sorted_getD_le hl (by omega) hc2lt
  by_cases hff : ⌊t1⌋ = ⌊t2⌋
  · by_cases hInt : t2 = (⌊t2⌋ : ℚ)
    · have hteq : t1 = t2 := by
        have h1 := Int.floor_le t1
        rw [hff] at h1
        have h2 : t2 ≤ t1 := by rw [hInt]; exact h1
        linarith
      rw [hteq]
    · have ht2lt : (⌊t2⌋ : ℚ) < t2 := lt_of_le_of_ne (Int.floor_le t2) (Ne.symm hInt)
      have hc2eq : ⌈t2⌉ = ⌊t2⌋ + 1 := by
        have h1 := Int.ceil_le_floor_add_one t2
        have h2 : ⌊t2⌋ < ⌈t2⌉ := Int.lt_ceil.mpr ht2lt
        omega
      by_cases hInt1 : t1 = (⌊t1⌋ : ℚ)
      · have hw10 : t1 - ⌊t1⌋ = 0 := by
          rw [hInt1, Int.floor_intCast]
          ring
        have hAeq : l.getD (⌊t1⌋).toNat 0 = l.getD (⌊t2⌋).toNat 0 := by rw [hff]
        rw [hw10, hAeq]
        nlinarith [hAB2]
      · have ht1lt : (⌊t1⌋ : ℚ) < t1 := lt_of_le_of_ne (Int.floor_le t1) (Ne.symm hInt1)
        have hc1eq : ⌈t1⌉ = ⌊t1⌋ + 1 := by
          have h1 := Int.ceil_le_floor_add_one t1
          have h2 : ⌊t1⌋ < ⌈t1⌉ := Int.lt_ceil.mpr ht1lt
          omega
        have hceq : ⌈t1⌉ = ⌈t2⌉ := by rw [hc1eq, hc2eq, hff]
        have hAeq : l.getD (⌊t1⌋).toNat 0 = l.getD (⌊t2⌋).toNat 0 := by rw [hff]
        have hBeq : l.getD (⌈t1⌉).toNat 0 = l.getD (⌈t2⌉).toNat 0 := by rw [hceq]
        have hffQ : (⌊t1⌋ : ℚ) = (⌊t2⌋ : ℚ) := by exact_mod_cast hff
        have hww : t1 - ⌊t1⌋ ≤ t2 - ⌊t2⌋ := by rw [hffQ] at *; linarith
        rw [hAeq, hBeq]
        nlinarith [hAB2]
  · have hflt : ⌊t1⌋ < ⌊t2⌋ := lt_of_le_of_ne (Int.floor_le_floor h12) hff
    have hc1f2 : (⌈t1⌉).toNat ≤ (⌊t2⌋).toNat := by
      have h1 := Int.ceil_le_floor_add_one t1
      omega
    have hstep2 : l.getD (⌈t1⌉).toNat 0 ≤ l.getD (⌊t2⌋).toNat 0 :=
      sorted_getD_le hl hc1f2 hf2lt
    nlinarith [hAB1, hAB2, hstep2]

/-- Claim C7: both percentile implementations are monotone in the requested
percentile over their valid ranges — `p ∈ [0, 100]` for the interpolating
variant of `App.jsx` and `p ∈ [0, 1)` for the order-statistic variant of
`part_002`. -/
theorem percentile_monotone (xs : List ℚ) (p1 p2 q1 q2 : ℚ) :
    (xs ≠ [] → 0 ≤ p1 → p1 < p2 → p2 ≤ 100 →
      percentileApp xs p1 ≤ percentileApp xs p2) ∧
    (xs ≠ [] → 0 ≤ q1 → q1 < q2 → q2 < 1 →
      percentileDisc xs q1 ≤ percentileDisc xs q2) := by
  constructor
  · intro hne h0 h12 h100
    have hlen0 : 0 < xs.length := List.length_pos.mpr hne
    have hlenQ : (1:ℚ) ≤ (xs.length : ℚ) := by exact_mod_cast hlen0
    rw [percentileApp, percentileApp]
    apply interp_mono (sortQ_sorted xs)
    · apply mul_nonneg (by positivity)
      linarith
    · nlinarith [mul_nonneg (by linarith : (0:ℚ) ≤ p2 - p1)
        (by linarith : (0:ℚ) ≤ (xs.length : ℚ) - 1)]
    · rw [sortQ_length]
      nlinarith [mul_nonneg (by linarith : (0:ℚ) ≤ 1 - p2 / 100)
        (by linarith : (0:ℚ) ≤ (xs.length : ℚ) - 1)]
  · intro hne h0 h12 h1
    have hlen0 : 0 < xs.length := List.length_pos.mpr hne
    have hlenQ : (0:ℚ) < (xs.length : ℚ) := by exact_mod_cast hlen0
    rw [percentileDisc, percentileDisc]
    apply sorted_getD_le (sortQ_sorted xs)
    · have hmono : ⌊(xs.length : ℚ) * q1⌋ ≤ ⌊(xs.length : ℚ) * q2⌋ :=
        Int.floor_le_floor (by nlinarith)
      omega
    · rw [sortQ_length]
      have h2 : ⌊(xs.length : ℚ) * q2⌋ < (xs.length : ℤ) := by
        rw [Int.floor_lt]
        push_cast
        nlinarith
      omega

/-- Witness for C7: the two-element list `[1, 3]` at percentiles `25 < 75`
(interpolating variant) and `0 < 1/2` (order-statistic variant). -/
theorem percentile_monotone_witness :
    percentileApp [1, 3] 25 ≤ percentileApp [1, 3] 75 ∧
    percentileDisc [1, 3] 0 ≤ percentileDisc [1, 3] (1/2) :=
  ⟨(percentile_monotone [1, 3] 25 75 0 (1/2)).1 (List.cons_ne_nil 1 [3])
      (by norm_num) (by norm_num) (by norm_num),
   (percentile_monotone [1, 3] 25 75 0 (1/2)).2 (List.cons_ne_nil 1 [3])
      (by norm_num) (by norm_num) (by norm_num)⟩
